import Mathlib

/-!
# Verification of the hypergres PostgreSQL query compiler and schema synthesizer

A shallow embedding of the query-compilation and schema-discovery code of the
hypergres repository:

* `src/provider/postgresql/queryHelpers.ts` (the `addQuery…` helpers),
* `src/provider/postgresql/queryBuilders.ts` (`createQuery`, `readQuery`, …),
* `src/provider/postgresql/discovery/schema.ts` (`isReadOnly`,
  `isEnumConstraint`, `isRequired`, `required`),
* `src/provider/postgresql/discovery.ts` (`matchesScope`, `scopeTerm`),
* `src/provider/postgresql.ts` (`JOIN_MARKER`).

The helpers build statements through the `squel` query-builder (v5.12) and run
on Node ≥ 8.  Behaviour of these dependencies is modelled from the observable
contract that the repository's own unit tests pin down
(`queryHelpers.test.ts`, `queryBuilders.test.ts`):

* squel renders each `WHERE` condition wrapped in parentheses and joined with
  ` AND `; nested expression objects are parenthesized when rendered inside a
  parent expression; `?` placeholders become numbered `$k` parameters.
* `Array.prototype.sort` of the Node 8 runtime used by the repository runs an
  insertion sort for the short arrays exercised here, calling the supplied
  callback as a two-argument comparator.  The callback
  `join => join.path.length` therefore returns the first argument's path
  length and ignores the second; the repository's CTE unit test requires the
  resulting order (input `[owner, project]` must yield CTEs
  `project, owner`), which is exactly what that insertion sort produces.
* the sort happens *in place* on `q.joins` (`Array.prototype.sort` mutates).

JavaScript data values (`q.data`, bound parameters) are modelled by `JS`
below; machine numbers are modelled as `Int` (all inputs considered lie well
inside the IEEE-754 safe-integer range, where JavaScript arithmetic is exact).
-/

namespace Hypergres

/-- A JavaScript value as used for query `data` and bound SQL parameters.
`vSubquery col src` stands for the squel `SELECT <col> FROM <src>` builder
object that `addQueryJoinCTEs` substitutes into the outgoing data. -/
inductive JS where
  | vNull : JS
  | vBool : Bool → JS
  | vNum : Int → JS
  | vStr : String → JS
  | vArr : List JS → JS
  | vObj : List (String × JS) → JS
  | vSubquery : String → String → JS
deriving Repr

/-- JavaScript's `typeof` operator on a `JS` value.  Note `typeof null` is
`"object"`, and arrays, plain objects and squel builder objects are all
`"object"`. -/
def jsTypeof : JS → String
  | JS.vNull => "object"
  | JS.vBool _ => "boolean"
  | JS.vNum _ => "number"
  | JS.vStr _ => "string"
  | JS.vArr _ => "object"
  | JS.vObj _ => "object"
  | JS.vSubquery _ _ => "object"

/-- `typeof` of an optional value, `none` standing for JavaScript
`undefined` (what Ramda's `path` returns for a missing path). -/
def jsTypeofOpt : Option JS → String
  | none => "undefined"
  | some v => jsTypeof v

/-- Ramda's `path(keys, value)`: walk `keys` through nested objects, yielding
`none` (i.e. `undefined`) when a step is missing or hits a non-object. -/
def pathLookup : List String → JS → Option JS
  | [], v => some v
  | k :: rest, JS.vObj fields =>
    match fields.lookup k with
    | some v => pathLookup rest v
    | none => none
  | _ :: _, _ => none

/-- Ramda's `assocPath(keys, val, value)` restricted to string keys: returns a
copy with `val` placed at the nested path.  An existing key keeps its position
in the object's key order; a missing key is appended; a non-object along the
way is replaced by a fresh object (Ramda spreads it into `{}`). -/
def assocPath : List String → JS → JS → JS
  | [], v, _ => v
  | k :: rest, v, JS.vObj fields =>
    if (fields.lookup k).isSome then
      JS.vObj (fields.map fun kv => if kv.1 = k then (k, assocPath rest v kv.2) else kv)
    else
      JS.vObj (fields ++ [(k, assocPath rest v (JS.vObj []))])
  | k :: rest, v, _ =>
    JS.vObj [(k, assocPath rest v (JS.vObj []))]

/-- `source.ts` / `query.ts`: the part of a `Source` the compiler reads. -/
structure Source where
  name : String
deriving Repr, DecidableEq

/-- `query.ts` `Join`: `{source, path, from, to}`. -/
structure Join where
  source : String
  path : List String
  fromCol : String
  toCol : String
deriving Repr, DecidableEq

/-- `query.ts` `Order`: `{field, direction}`. -/
structure Order where
  field : String
  direction : String
deriving Repr, DecidableEq

/-- `query.ts` `Page`: `{size, number}`. -/
structure Page where
  size : Int
  number : Int
deriving Repr, DecidableEq

/-- `query.ts` `Condition`: the tagged union
`ConditionAnd | ConditionOr | Raw | ConditionTerm`.  `addQueryCondition`
dispatches on the `$and`, `$or`, `$raw` keys in that order and otherwise
treats the node as a term with default operator `"="`; the four constructors
mirror that dispatch.  A `Raw` without `values` is `raw frag []`. -/
inductive Condition where
  | and : List Condition → Condition
  | or : List Condition → Condition
  | raw : String → List JS → Condition
  | term : String → Option String → JS → Condition
deriving Repr

/-- `query.ts` `Field`: a plain column name or a `Raw` fragment. -/
inductive Field where
  | col : String → Field
  | raw : String → Field
deriving Repr, DecidableEq

/-- `query.ts` `Read`. -/
structure ReadQuery where
  source : Source
  fields : Option (List Field)
  conditions : Option (List Condition)
  joins : Option (List Join)
  order : Option (List Order)
  page : Option Page
deriving Repr

/-- `query.ts` `Create`. -/
structure CreateQuery where
  source : Source
  returning : List String
  joins : Option (List Join)
  data : JS
deriving Repr

/-- `postgresql.ts` `JOIN_MARKER`: the fixed separator between nesting-path
segments in join aliases. -/
def JOIN_MARKER : String := "Δ"

/-!
## `Array.prototype.sort` of the Node 8 runtime

`addQueryJoinCTEs` executes `q.joins.sort(join => join.path.length)`.  The
callback is used by the engine as a two-argument comparator, so it returns the
first argument's path length and ignores the second.  For the array sizes the
repository exercises (well under the engine's 10-element insertion-sort
threshold) the engine runs the classic in-place insertion sort below: each
element is taken left to right and moved left past every predecessor `e` for
which `comparator(e, element) > 0`.  The repository's own CTE test pins this
behaviour (input joins `[owner, project]` must produce the CTE order
`project, owner`).
-/

/-- One step of the engine's insertion sort: insert `x` into the already
processed prefix `acc`, moving it left past every trailing element `e` of
`acc` with `cmp e x > 0`. -/
def jsInsert (cmp : α → α → Int) (x : α) (acc : List α) : List α :=
  (acc.reverse.dropWhile (fun e => cmp e x > 0)).reverse
    ++ x :: (acc.reverse.takeWhile (fun e => cmp e x > 0)).reverse

/-- The engine's insertion sort (the in-place `Array.prototype.sort` of the
runtime, as observable through the repository's unit tests), as a function on
lists. -/
def v8InsertionSort (cmp : α → α → Int) (l : List α) : List α :=
  l.foldl (fun acc x => jsInsert cmp x acc) []

/-- The comparator actually passed to `sort` in `addQueryJoinCTEs`
(`queryHelpers.ts` line 25): the single-parameter callback
`join => join.path.length`, which as a comparator returns the first
argument's path length. -/
def joinComparator (a _b : Join) : Int := (a.path.length : Int)

/-- `q.joins.sort(join => join.path.length)` (`queryHelpers.ts` line 25):
the list the engine's in-place sort leaves behind and iterates for CTE
emission. -/
def sortJoins (joins : List Join) : List Join :=
  v8InsertionSort joinComparator joins

/-!
## The condition builder (`addQueryCondition` / `addQueryConditions`)

`addQueryCondition` recursively builds a squel expression; squel renders a
nested expression object wrapped in parentheses and joins an expression's
nodes with ` AND ` / ` OR `, while string nodes (raw fragments and term
strings) are rendered verbatim with each `?` replaced by the next numbered
`$k` placeholder and its value appended to the parameter list.  All of this
is pinned by the `addQueryConditions` cases of `queryHelpers.test.ts`.  The
renderer threads the 1-based parameter counter left to right through the
statement text, which is how squel's `toParam()` numbers `$k` placeholders.

The model assumes raw fragments carry exactly one `?` per supplied value
(every fragment in the repository does); each `?` is substituted in order.
-/

/-- Substitute each `?` of a raw fragment by numbered placeholders starting at
`n`, returning the text and the number of placeholders substituted. -/
def substPlaceholders (n : Nat) : List Char → String × Nat
  | [] => ("", 0)
  | c :: rest =>
    if c = '?' then
      let (t, k) := substPlaceholders (n + 1) rest
      ("$" ++ toString n ++ t, k + 1)
    else
      let (t, k) := substPlaceholders n rest
      (String.singleton c ++ t, k)

mutual

/-- `addQueryCondition(source, condition)` (`queryHelpers.ts` lines 133–168)
combined with squel's expression rendering: the (unparenthesized) boolean
expression text, its bound parameters, and the next parameter index.  The
caller — a parent expression or the WHERE clause — parenthesizes the result.

* `$and` / `$or`: each child is compiled recursively into a nested squel
  expression, which renders parenthesized; the pieces are joined with
  ` AND ` / ` OR `.
* `$raw`: the fragment is rendered verbatim apart from `?` placeholder
  substitution, with its values appended.
* term: `<source.name>.<field> <operator> ?` with default operator `=`,
  bound to the term's value. -/
def renderCond (src : String) : Condition → Nat → String × List JS × Nat
  | Condition.and cs, n =>
    let (ts, ps, n') := renderConds src cs n
    (String.intercalate " AND " (ts.map fun t => "(" ++ t ++ ")"), ps, n')
  | Condition.or cs, n =>
    let (ts, ps, n') := renderConds src cs n
    (String.intercalate " OR " (ts.map fun t => "(" ++ t ++ ")"), ps, n')
  | Condition.raw frag vals, n =>
    let (t, _) := substPlaceholders n frag.data
    (t, vals, n + vals.length)
  | Condition.term field op v, n =>
    (src ++ "." ++ field ++ " " ++ op.getD "=" ++ " $" ++ toString n, [v], n + 1)

/-- Compile a list of conditions in order, threading the parameter counter. -/
def renderConds (src : String) : List Condition → Nat → List String × List JS × Nat
  | [], n => ([], [], n)
  | c :: cs, n =>
    let (t, p, n1) := renderCond src c n
    let (ts, ps, n2) := renderConds src cs n1
    (t :: ts, p ++ ps, n2)

end

/-- The WHERE clause squel renders from a list of accumulated conditions:
every condition is parenthesized and the pieces are joined with ` AND `
(`WHERE (c1) AND (c2) …`); an empty list yields no clause. -/
def whereClause (items : List String) : String :=
  if items.isEmpty then ""
  else " WHERE " ++ String.intercalate " AND " (items.map fun t => "(" ++ t ++ ")")

/-!
## The Read compiler (`readQuery`)
-/

/-- `addQueryFields` (`queryHelpers.ts` lines 70–83): the SELECT column list
before joins are added.  No `fields` → `<source>.*`; a plain field is
qualified with the source name; a raw field's fragment is emitted verbatim. -/
def fieldList (q : ReadQuery) : List String :=
  match q.fields with
  | none => [q.source.name ++ ".*"]
  | some fs =>
    fs.map fun f =>
      match f with
      | Field.col name => q.source.name ++ "." ++ name
      | Field.raw frag => frag

/-- The alias of a join: its `path` segments joined with `JOIN_MARKER`
(`queryHelpers.ts` line 98). -/
def joinAlias (j : Join) : String :=
  String.intercalate JOIN_MARKER j.path

/-- The parent alias of a join: the `path` with its last segment removed,
joined with `JOIN_MARKER` (`queryHelpers.ts` line 99) — for a single-segment
path this is the empty string. -/
def joinSelf (j : Join) : String :=
  String.intercalate JOIN_MARKER j.path.dropLast

/-- One LEFT JOIN clause added by `addQueryJoins` (`queryHelpers.ts`
line 101), as squel renders it. -/
def joinClause (j : Join) : String :=
  " LEFT JOIN " ++ j.source ++ " AS " ++ joinAlias j ++ " ON (" ++
    joinAlias j ++ "." ++ j.toCol ++ " = " ++ joinSelf j ++ "." ++ j.fromCol ++ ")"

/-- The `row_to_json` SELECT column `addQueryJoins` adds for a join when not
counting (`queryHelpers.ts` line 107). -/
def joinField (j : Join) : String :=
  "row_to_json(" ++ joinAlias j ++ ".*) AS " ++ joinAlias j

/-- `addQueryOrder` (`queryHelpers.ts` lines 174–182): squel renders
`ORDER BY f ASC, …`; the direction is ASC exactly when the query's direction
lower-cases to `asc`. -/
def orderClause (orders : List Order) : String :=
  if orders.isEmpty then ""
  else
    " ORDER BY " ++ String.intercalate ", " (orders.map fun o =>
      o.field ++ (if o.direction.toLower = "asc" then " ASC" else " DESC"))

/-- `addQueryPagination` (`queryHelpers.ts` lines 188–195) as squel renders
it with the next parameter index `n`: no `page` adds nothing; otherwise
`LIMIT <size> OFFSET <size * (number - 1)>`, both as bound parameters. -/
def addQueryPagination (page : Option Page) (n : Nat) : String × List JS :=
  match page with
  | none => ("", [])
  | some p =>
    (" LIMIT $" ++ toString n ++ " OFFSET $" ++ toString (n + 1),
      [JS.vNum p.size, JS.vNum (p.size * (p.number - 1))])

/-- `readQuery` (`queryBuilders.ts` lines 33–46): assembles the SELECT.  The
helpers run in source order — fields, joins, conditions, order, **conditions
again** (the call on line 42 repeats the one on line 40), pagination — and
squel then renders the blocks: SELECT columns, FROM, JOINs, WHERE (all
accumulated conditions, so each condition appears twice), ORDER BY, and the
parameterized LIMIT/OFFSET from `addQueryPagination` (`queryHelpers.ts`
lines 188–195) with `limit = size` and `offset = size * (number - 1)`. -/
def readQueryCompile (q : ReadQuery) : String × List JS :=
  let js := q.joins.getD []
  let conds := q.conditions.getD []
  let (ws1, ps1, n1) := renderConds q.source.name conds 1
  let (ws2, ps2, n2) := renderConds q.source.name conds n1
  let selectText :=
    "SELECT " ++ String.intercalate ", " (fieldList q ++ js.map joinField) ++
      " FROM " ++ q.source.name
  let joinText := String.join (js.map joinClause)
  let (pageText, pageParams) := addQueryPagination q.page n2
  (selectText ++ joinText ++ whereClause (ws1 ++ ws2) ++
      orderClause (q.order.getD []) ++ pageText,
    ps1 ++ ps2 ++ pageParams)

/-!
## The Create compiler (`createQuery` with `addQueryJoinCTEs`)

`createQuery` (`queryBuilders.ts` lines 18–28) resolves join CTEs first and
then sets the top-level column assignments; squel renders the CTEs as a
leading `WITH a AS (…), b AS (…) ` prefix, numbering `$k` parameters in text
order (CTE bodies first, then the outer VALUES).  Failures that the
JavaScript code surfaces as thrown exceptions (e.g. Ramda's `map` over
`null` inside `addQueryValues` — the `data = {}` default only replaces
`undefined`, not `null`) are modelled with `Except.error`.
-/

/-- A common table expression as emitted by `addQueryJoinCTEs`: its alias,
its `INSERT … RETURNING …` body text and the body's bound parameters. -/
structure CTE where
  cteAlias : String
  body : String
  params : List JS
deriving Repr

/-- `addQueryValues` (`queryHelpers.ts` lines 60–63) plus squel's
`setFields`/`toParam` rendering: from a data object, the comma-separated
column list, the VALUES fragment, the bound parameters and the next
parameter index.  A top-level array value is wrapped one level deeper, which
squel renders as a parenthesized single placeholder binding the whole array;
a substituted subquery renders inline as `(SELECT <col> FROM <alias>)` with
no parameter; every other value becomes one placeholder.  Ramda's `map`
throws a `TypeError` on `null` data (the `= {}` default only fires for
`undefined`), and squel cannot render fields from a non-object, so those
cases are errors. -/
def renderDataValues (d : JS) (n : Nat) :
    Except String (String × String × List JS × Nat) :=
  match d with
  | JS.vObj fields =>
    let step := fun (acc : List String × List String × List JS × Nat)
        ((k, v) : String × JS) =>
      let (cols, vals, ps, m) := acc
      match v with
      | JS.vSubquery col source =>
        (cols ++ [k], vals ++ ["(SELECT " ++ col ++ " FROM " ++ source ++ ")"], ps, m)
      | JS.vArr xs =>
        (cols ++ [k], vals ++ ["($" ++ toString m ++ ")"], ps ++ [JS.vArr xs], m + 1)
      | v =>
        (cols ++ [k], vals ++ ["$" ++ toString m], ps ++ [v], m + 1)
    let (cols, vals, ps, m) := fields.foldl step ([], [], [], n)
    Except.ok (String.intercalate ", " cols, String.intercalate ", " vals, ps, m)
  | JS.vNull => Except.error "TypeError: Ramda map over null"
  | _ => Except.error "setFields requires an object"

/-- The body of the loop in `addQueryJoinCTEs` (`queryHelpers.ts` lines
26–50), iterating the sorted joins: look the join's path up in the
*original* `q.data`; skip the join when `typeof` of the found value is not
`"object"` (note JavaScript's `typeof null === "object"`, so `null` is *not*
skipped and falls through to the failing nested insert); otherwise emit a
CTE `INSERT INTO <join.source> (…) VALUES (…) RETURNING <join.to>` and
substitute `SELECT <join.to> FROM <alias>` for the nested value in the
outgoing data.  Returns the emitted CTEs in order, the transformed data and
the next parameter index. -/
def cteFold (origData : JS) : List Join → JS → Nat →
    Except String (List CTE × JS × Nat)
  | [], td, n => Except.ok ([], td, n)
  | j :: js, td, n =>
    let nested := pathLookup j.path origData
    if jsTypeofOpt nested ≠ "object" then
      cteFold origData js td n
    else
      match nested with
      | none => cteFold origData js td n
      | some v =>
        match renderDataValues v n with
        | Except.error e => Except.error e
        | Except.ok (cols, vals, ps, n') =>
          let a := joinAlias j
          let body := "INSERT INTO " ++ j.source ++ " (" ++ cols ++ ") VALUES (" ++
            vals ++ ") RETURNING " ++ j.toCol
          let td' := assocPath j.path (JS.vSubquery j.toCol a) td
          match cteFold origData js td' n' with
          | Except.error e => Except.error e
          | Except.ok (ctes, td'', n'') =>
            Except.ok (⟨a, body, ps⟩ :: ctes, td'', n'')

/-- `addQueryJoinCTEs` (`queryHelpers.ts` lines 17–53): with no `joins` the
data passes through untouched; otherwise the joins list is sorted **in
place** (`sortJoins` models the engine's `Array.prototype.sort` with the
single-argument callback) and the loop of `cteFold` runs over the sorted
list against a clone of `q.data`.  Also returns the joins list as the
mutated query object retains it. -/
def addQueryJoinCTEs (q : CreateQuery) :
    Except String (List CTE × JS × Nat × Option (List Join)) :=
  match q.joins with
  | none => Except.ok ([], q.data, 1, none)
  | some js =>
    let sorted := sortJoins js
    match cteFold q.data sorted q.data 1 with
    | Except.error e => Except.error e
    | Except.ok (ctes, td, n) => Except.ok (ctes, td, n, some sorted)

/-- The `WITH a AS (…), b AS (…) ` prefix squel renders for the accumulated
CTEs (empty when there are none). -/
def withPrefix (ctes : List CTE) : String :=
  if ctes.isEmpty then ""
  else
    "WITH " ++
      String.intercalate ", " (ctes.map fun c => c.cteAlias ++ " AS (" ++ c.body ++ ")") ++
      " "

/-- The ` RETURNING …` clause of `createQuery`: the `returning` names joined
with `,`; squel drops the clause when the joined string is empty. -/
def returningClause (returning : List String) : String :=
  let r := String.intercalate "," returning
  if r = "" then "" else " RETURNING " ++ r

/-- `createQuery` (`queryBuilders.ts` lines 18–28): resolves join CTEs, sets
the (transformed) data values and renders
`WITH … INSERT INTO <source> (…) VALUES (…) RETURNING …`.  Returns the
compiled `(text, params)` **and the query object as the call leaves it** —
identical to the input except that `joins`, when present, has been sorted in
place by `Array.prototype.sort`. -/
def createQueryCompile (q : CreateQuery) :
    Except String ((String × List JS) × CreateQuery) :=
  match addQueryJoinCTEs q with
  | Except.error e => Except.error e
  | Except.ok (ctes, td, n, joins') =>
    match renderDataValues td n with
    | Except.error e => Except.error e
    | Except.ok (cols, vals, ps, _) =>
      let text := withPrefix ctes ++ "INSERT INTO " ++ q.source.name ++
        " (" ++ cols ++ ") VALUES (" ++ vals ++ ")" ++ returningClause q.returning
      let params := (ctes.map CTE.params).flatten ++ ps
      Except.ok ((text, params), { q with joins := joins' })

/-!
## Schema synthesis (`discovery/schema.ts`)

`isEnumConstraint` matches each CHECK-constraint source text against

* `ENUM_CHECK_REGEX    = /^\(.* = ANY \(ARRAY\[(.*)\]\)\)/`
* `ENUM_EXTRACT_VALUE_REGEX = /^'(.*)'::.*/`

Both `.*` are greedy, so group 1 of the first pattern ends at the *last*
occurrence of `]))` after the *last* viable occurrence of ` = ANY (ARRAY[`
(the engine backtracks to an earlier occurrence only when no `]))` follows),
and group 1 of the second pattern ends at the last occurrence of `'::`.  The
captured list is split on the two-character separator `", "` (comma, space).
The model below implements exactly these two patterns over strings without
newline characters (`.` never needs to match a newline on catalog constraint
text, which `pg_get_constraintdef` emits on one line).
-/

/-- All positions at which `sep` occurs in `s` (ascending). -/
def subOccurrences (sep s : List Char) : List Nat :=
  (List.range (s.length + 1)).filter fun i => sep.isPrefixOf (s.drop i)

/-- Group 1 of `ENUM_CHECK_REGEX` applied to a constraint text, `none` when
the pattern does not match: after the leading `(`, the greedy `.*` commits to
the last occurrence of ` = ANY (ARRAY[` that is still followed by `]))`
somewhere, and the greedy group 1 then extends to the last `]))`. -/
def enumCheckCapture (s : String) : Option String :=
  match s.data with
  | '(' :: t =>
    (subOccurrences (" = ANY (ARRAY[").data t).reverse.findSome? fun i =>
      let rest := t.drop (i + (" = ANY (ARRAY[").length)
      (subOccurrences ("]))").data rest).getLast?.map fun j =>
        String.mk (rest.take j)
  | _ => none

/-- Group 1 of `ENUM_EXTRACT_VALUE_REGEX` applied to one literal, `none` when
the pattern does not match: a leading `'`, then the greedy group up to the
last occurrence of `'::`. -/
def enumExtractValue (s : String) : Option String :=
  match s.data with
  | '\'' :: t =>
    (subOccurrences ("'::").data t).getLast?.map fun i => String.mk (t.take i)
  | _ => none

/-- JavaScript `String.prototype.split(', ')`: break at each (left-to-right,
non-overlapping) occurrence of comma-space. -/
def splitCommaSpace : List Char → List (List Char)
  | [] => [[]]
  | ',' :: ' ' :: rest => [] :: splitCommaSpace rest
  | c :: rest =>
    match splitCommaSpace rest with
    | [] => [[c]]
    | g :: gs => (c :: g) :: gs

/-- The literal list one constraint contributes (`schema.ts` lines 197–213):
a `null` constraint or a non-matching (or empty-group) constraint yields
`[]`; otherwise the captured list is split on `", "` and each piece run
through `ENUM_EXTRACT_VALUE_REGEX`, keeping only truthy (non-`null`,
non-empty) extracted values — the inner `.filter(identity)`. -/
def constraintEnumValues (c : Option String) : List String :=
  match c with
  | none => []
  | some s =>
    match enumCheckCapture s with
    | none => []
    | some cap =>
      if cap = "" then []
      else
        ((splitCommaSpace cap.data).map String.mk).filterMap fun v =>
          match enumExtractValue v with
          | none => none
          | some x => if x = "" then none else some x

/-- `isEnumConstraint(column)` (`schema.ts` lines 191–221) restricted to its
input, the column's `constraints`: `none` models an absent `enum` attribute,
`some values` the attribute `{enum: values}`.  A missing or empty
constraints list yields no attribute.  Otherwise `values` is the per-
constraint lists flattened — note the outer `.filter(identity)` keeps empty
arrays (JavaScript arrays are truthy), so `values.length` equals the number
of constraints and is non-zero whenever the list is non-empty: the attribute
is then always present, possibly as `{enum: []}`. -/
def isEnumConstraint (constraints : Option (List (Option String))) :
    Option (List String) :=
  match constraints with
  | none => none
  | some cs =>
    if cs.isEmpty then none
    else some (cs.map constraintEnumValues).flatten

/-- The `default` attribute of an introspected column:
`string | number | null` (`discovery.ts` `Column`). -/
inductive ColumnDefault where
  | nullDefault : ColumnDefault
  | str : String → ColumnDefault
  | num : Int → ColumnDefault
deriving Repr, DecidableEq

/-- `discovery.ts` `Column`, the raw catalog facts feeding schema
synthesis. -/
structure Column where
  name : String
  nullable : Bool
  default : ColumnDefault
  isprimarykey : Bool
  constraints : Option (List (Option String))
deriving Repr, DecidableEq

/-- `isReadOnly(column)` (`schema.ts` lines 175–182), as the presence of the
`{readOnly: true}` attribute: the column is a primary key, non-nullable, and
its default is a *string* starting with `nextval`. -/
def isReadOnly (c : Column) : Bool :=
  c.isprimarykey && !c.nullable &&
    (match c.default with
     | ColumnDefault.str s => ("nextval").data.isPrefixOf s.data
     | _ => false)

/-- `isRequired(column)` (`schema.ts` lines 232–233): non-nullable and the
default is exactly `null`. -/
def isRequired (c : Column) : Bool :=
  !c.nullable &&
    (match c.default with
     | ColumnDefault.nullDefault => true
     | _ => false)

/-- `required(columns)` (`schema.ts` lines 242–245): the names of the
required columns, in column order. -/
def requiredNames (columns : List Column) : List String :=
  (columns.filter isRequired).map Column.name

/-!
## Discovery scope (`discovery.ts`)
-/

/-- `discovery.ts` `Scope`: `true | {only: [...]} | {except: [...]}`. -/
inductive Scope where
  | all : Scope
  | only : List String → Scope
  | except : List String → Scope
deriving Repr, DecidableEq

/-- `matchesScope(scope, name)` (`discovery.ts`): an absent (`undefined`,
falsy) scope never matches; `true` always matches; `{only}` is a membership
test; `{except}` a negated membership test.  (The trailing
`throw Error('Invalid scope')` of the source is unreachable for values of
the `Scope` type.) -/
def matchesScope (scope : Option Scope) (name : String) : Bool :=
  match scope with
  | none => false
  | some Scope.all => true
  | some (Scope.only l) => l.contains name
  | some (Scope.except l) => !l.contains name

/-- pg-promise `as.format` `$n:name` formatting: the identifier in double
quotes, internal double quotes doubled. -/
def pgFormatName (s : String) : String :=
  "\"" ++ String.mk (s.data.foldr
    (fun c acc => if c = '"' then '"' :: '"' :: acc else c :: acc) []) ++ "\""

/-- pg-promise `as.format` `$n:csv` formatting of a string list: each string
single-quoted with internal quotes doubled, joined by commas. -/
def pgFormatCsv (l : List String) : String :=
  String.intercalate "," (l.map fun s =>
    "'" ++ String.mk (s.data.foldr
      (fun c acc => if c = '\'' then '\'' :: '\'' :: acc else c :: acc) []) ++ "'")

/-- `scopeTerm(name, scope)` (`discovery.ts`, the batched-inspection
variant): the WHERE term enforcing a scope in the catalog queries — `FALSE`
for an absent scope, `TRUE` for `true`, and `IN` / `NOT IN` lists formatted
by pg-promise otherwise. -/
def scopeTerm (name : String) (scope : Option Scope) : String :=
  match scope with
  | none => "FALSE"
  | some Scope.all => "TRUE"
  | some (Scope.only l) => pgFormatName name ++ " IN (" ++ pgFormatCsv l ++ ")"
  | some (Scope.except l) => pgFormatName name ++ " NOT IN (" ++ pgFormatCsv l ++ ")"

/-!
## Theorems
-/

/-- Claim C1: the claim states that `compileRead` adds each top-level
condition entry exactly once as its own WHERE term, with one occurrence of
each bound value.  The code violates this: `readQuery` calls
`addQueryConditions` twice (`queryBuilders.ts` lines 40 and 42), so the
single condition `{field: "id", value: 2}` produces *two* WHERE terms and
its bound value appears *twice* in the parameter list. -/
theorem readQuery_duplicates_each_condition :
    readQueryCompile
        ⟨⟨"test"⟩, none, some [Condition.term "id" none (JS.vNum 2)],
          none, none, none⟩ =
      ("SELECT test.* FROM test WHERE (test.id = $1) AND (test.id = $2)",
        [JS.vNum 2, JS.vNum 2]) := rfl

/-- Claim C5 (counterexample): on the exact CHECK text given by the claim,
`(rating = ANY (ARRAY['good'::text,'average'::text,'bad'::text]))` — whose
literals are separated by a bare comma — `isEnumConstraint` does *not*
produce `enum: ["good","average","bad"]`: the captured list is split on
comma-*space*, so the whole list survives as a single piece and the greedy
quote-stripping regex then yields one garbled literal. -/
theorem enum_extraction_spec_example_fails :
    isEnumConstraint
        (some [some "(rating = ANY (ARRAY['good'::text,'average'::text,'bad'::text]))"]) =
      some ["good'::text,'average'::text,'bad"] ∧
    isEnumConstraint
        (some [some "(rating = ANY (ARRAY['good'::text,'average'::text,'bad'::text]))"]) ≠
      some ["good", "average", "bad"] := by
  exact ⟨rfl, by decide⟩

/-- Claim C5 (amended): `isEnumConstraint` splits the captured literal list
on comma-space, so enum values are extracted correctly when the literals are
separated by `", "` (as PostgreSQL's constraint deparser emits them); on the
claim's no-space text the whole list is treated as one literal and greedy
cast-stripping yields a single garbled value; and a column whose constraint
list is non-empty but matches nowhere still receives an *empty* `enum`
attribute — only a missing or empty constraints list yields no attribute. -/
theorem enum_extraction_behaviour :
    isEnumConstraint
        (some [some "(rating = ANY (ARRAY['good'::text, 'average'::text, 'bad'::text]))"]) =
      some ["good", "average", "bad"] ∧
    isEnumConstraint
        (some [some "(rating = ANY (ARRAY['good'::text,'average'::text,'bad'::text]))"]) =
      some ["good'::text,'average'::text,'bad"] ∧
    isEnumConstraint (some [some "(rating > 0)"]) = some [] ∧
    isEnumConstraint (some [none, some "(rating = ANY (ARRAY['a'::text, 'b'::text]))"]) =
      some ["a", "b"] ∧
    isEnumConstraint (some []) = none ∧
    isEnumConstraint none = none := by
  exact ⟨rfl, rfl, rfl, rfl, rfl, rfl⟩

/-- Claim C7: for every page with `size > 0` and `number ≥ 1`, pagination
compiles to `LIMIT size OFFSET size * (number - 1)` as bound parameters
(exact integer arithmetic); `number = 1` gives offset `0` and the offset is
never negative. -/
theorem pagination_law (p : Page) (n : Nat)
    (hs : 0 < p.size) (hn : 1 ≤ p.number) :
    addQueryPagination (some p) n =
      (" LIMIT $" ++ toString n ++ " OFFSET $" ++ toString (n + 1),
        [JS.vNum p.size, JS.vNum (p.size * (p.number - 1))]) ∧
    0 ≤ p.size * (p.number - 1) ∧
    (p.number = 1 → p.size * (p.number - 1) = 0) ∧
    readQueryCompile ⟨⟨"test"⟩, none, none, none, none, some p⟩ =
      ("SELECT test.* FROM test LIMIT $1 OFFSET $2",
        [JS.vNum p.size, JS.vNum (p.size * (p.number - 1))]) := by
  refine ⟨rfl, mul_nonneg hs.le (by omega), fun h => by rw [h]; ring, rfl⟩

/-- Claim C7 (witness): the repository's own pagination test vector,
`{size: 5, number: 4}`, compiles to `LIMIT $1 OFFSET $2` with parameters
`[5, 15]`. -/
theorem pagination_law_witness :
    0 < (5 : Int) ∧ 1 ≤ (4 : Int) ∧
    readQueryCompile ⟨⟨"test"⟩, none, none, none, none, some ⟨5, 4⟩⟩ =
      ("SELECT test.* FROM test LIMIT $1 OFFSET $2",
        [JS.vNum 5, JS.vNum 15]) :=
  ⟨by norm_num, by norm_num,
    (pagination_law ⟨5, 4⟩ 1 (by norm_num) (by norm_num)).2.2.2⟩

/-- Claim C8: discovery scope evaluation is a total match over the scope
variant — an absent scope matches nothing, `All` matches every name,
`Only(list)` matches exactly the members, `Except(list)` exactly the
non-members; and the SQL form `scopeTerm` renders the absent and `All`
cases as the constant terms `FALSE` and `TRUE`. -/
theorem scope_evaluation_total (name : String) (l : List String) :
    matchesScope none name = false ∧
    matchesScope (some Scope.all) name = true ∧
    (matchesScope (some (Scope.only l)) name = true ↔ name ∈ l) ∧
    (matchesScope (some (Scope.except l)) name = true ↔ name ∉ l) ∧
    scopeTerm name none = "FALSE" ∧
    scopeTerm name (some Scope.all) = "TRUE" := by
  refine ⟨rfl, rfl, ?_, ?_, rfl, rfl⟩ <;> simp [matchesScope]

/-- Claim C10: read-only and required are mutually exclusive by
construction — `isReadOnly` demands a default that is a string starting with
`nextval`, while `isRequired` demands a `null` default — so a read-only
column is never required, and (for distinctly named columns) its name never
appears in the schema's `required` list. -/
theorem readOnly_excludes_required (cols : List Column) (c : Column)
    (hnodup : (cols.map Column.name).Nodup) (hmem : c ∈ cols)
    (hro : isReadOnly c = true) :
    isRequired c = false ∧ c.name ∉ requiredNames cols := by
  have hreq : isRequired c = false := by
    rcases hd : c.default with _ | s | k
    · simp [isReadOnly, hd] at hro
    · simp [isRequired, hd]
    · simp [isRequired, hd]
  refine ⟨hreq, fun hin => ?_⟩
  rcases List.mem_map.mp hin with ⟨c', hc', hname⟩
  rcases List.mem_filter.mp hc' with ⟨hc'mem, hc'req⟩
  have hceq : c' = c := List.inj_on_of_nodup_map hnodup hc'mem hmem hname
  rw [hceq, hreq] at hc'req
  exact Bool.false_ne_true hc'req

/-- Claim C10 (witness): a serial primary-key column (`nullable = false`,
default `nextval('test_id_seq'::regclass)`, primary key) is read-only, not
required, and absent from the `required` list of its table. -/
theorem readOnly_excludes_required_witness :
    isReadOnly ⟨"id", false, ColumnDefault.str "nextval('test_id_seq'::regclass)", true, none⟩ = true ∧
    isRequired ⟨"id", false, ColumnDefault.str "nextval('test_id_seq'::regclass)", true, none⟩ = false ∧
    "id" ∉ requiredNames
      [⟨"id", false, ColumnDefault.str "nextval('test_id_seq'::regclass)", true, none⟩,
       ⟨"name", false, ColumnDefault.nullDefault, false, none⟩] := by
  have h := readOnly_excludes_required
    [⟨"id", false, ColumnDefault.str "nextval('test_id_seq'::regclass)", true, none⟩,
     ⟨"name", false, ColumnDefault.nullDefault, false, none⟩]
    ⟨"id", false, ColumnDefault.str "nextval('test_id_seq'::regclass)", true, none⟩
    (by decide) (by decide) (by decide)
  exact ⟨by decide, h.1, h.2⟩

/-- Claim C6: every grouping is explicitly parenthesized — `And` compiles
each child, parenthesizes it individually and joins with ` AND `; `Or` does
the same with ` OR `; in particular `And([Term a, Term b])` yields two
parenthesized terms joined by AND, and a sibling `Or` group stays
separately parenthesized next to a term at the top level (the repository's
own mixed `$or`-plus-term test vector). -/
theorem condition_grouping_parenthesized :
    (∀ (src f1 f2 : String) (o1 o2 : Option String) (v1 v2 : JS) (n : Nat),
      renderCond src (Condition.and [Condition.term f1 o1 v1, Condition.term f2 o2 v2]) n =
        ("(" ++ (src ++ "." ++ f1 ++ " " ++ o1.getD "=" ++ " $" ++ toString n) ++ ")" ++
          " AND " ++
          ("(" ++ (src ++ "." ++ f2 ++ " " ++ o2.getD "=" ++ " $" ++ toString (n + 1)) ++ ")"),
          [v1, v2], n + 2)) ∧
    (∀ (src : String) (cs : List Condition) (n : Nat),
      renderCond src (Condition.and cs) n =
        (String.intercalate " AND " ((renderConds src cs n).1.map fun t => "(" ++ t ++ ")"),
          (renderConds src cs n).2.1, (renderConds src cs n).2.2)) ∧
    (∀ (src : String) (cs : List Condition) (n : Nat),
      renderCond src (Condition.or cs) n =
        (String.intercalate " OR " ((renderConds src cs n).1.map fun t => "(" ++ t ++ ")"),
          (renderConds src cs n).2.1, (renderConds src cs n).2.2)) ∧
    whereClause ((renderConds "test"
        [Condition.or [Condition.term "id" none (JS.vNum 5),
                       Condition.term "name" none (JS.vStr "test")],
         Condition.term "description" (some "LIKE") (JS.vStr "%test%")] 1).1) =
      " WHERE ((test.id = $1) OR (test.name = $2)) AND (test.description LIKE $3)" := by
  have hpair : ∀ (s a b : String), String.intercalate s [a, b] = a ++ s ++ b :=
    fun s a b => rfl
  refine ⟨?_, ?_, ?_, rfl⟩
  · intro src f1 f2 o1 o2 v1 v2 n
    simp [renderCond, renderConds, hpair, String.append_assoc]
  · intro src cs n
    rcases hE : renderConds src cs n with ⟨ts, ps, n'⟩
    simp [renderCond, hE]
  · intro src cs n
    rcases hE : renderConds src cs n with ⟨ts, ps, n'⟩
    simp [renderCond, hE]

/-- Claim C4 (counterexample): for the single-segment join path `["users"]`
on source `test`, the claim predicts the join condition
`users.id = test.owner_id` (parent = root source name); the compiler
actually emits the parent alias as the empty string — the join condition is
`users.id = .owner_id`. -/
theorem join_parent_alias_not_source :
    readQueryCompile ⟨⟨"test"⟩, none, none,
        some [⟨"users", ["users"], "owner_id", "id"⟩], none, none⟩ =
      ("SELECT test.*, row_to_json(users.*) AS users FROM test" ++
        " LEFT JOIN users AS users ON (users.id = .owner_id)", []) ∧
    ("SELECT test.*, row_to_json(users.*) AS users FROM test" ++
        " LEFT JOIN users AS users ON (users.id = .owner_id)" : String) ≠
      ("SELECT test.*, row_to_json(users.*) AS users FROM test" ++
        " LEFT JOIN users AS users ON (users.id = test.owner_id)") := by
  exact ⟨rfl, by decide⟩

/-- Claim C4 (amended): every join of a Read query becomes a LEFT JOIN whose
alias is the path segments concatenated with `JOIN_MARKER`, with condition
`<alias>.<to> = <parent>.<from>` where the parent alias is the path with its
last segment removed joined with `JOIN_MARKER` — which for a single-segment
path is the **empty string** (`List.dropLast` of a singleton is `[]` and the
root source name is *not* substituted). -/
theorem readQuery_join_clause_shape (src : String) (js : List Join) :
    readQueryCompile ⟨⟨src⟩, none, none, some js, none, none⟩ =
      ("SELECT " ++ String.intercalate ", "
          ((src ++ ".*") :: js.map fun j =>
            "row_to_json(" ++ String.intercalate JOIN_MARKER j.path ++ ".*) AS " ++
              String.intercalate JOIN_MARKER j.path) ++
        " FROM " ++ src ++
        String.join (js.map fun j =>
          " LEFT JOIN " ++ j.source ++ " AS " ++ String.intercalate JOIN_MARKER j.path ++
            " ON (" ++ String.intercalate JOIN_MARKER j.path ++ "." ++ j.toCol ++ " = " ++
            String.intercalate JOIN_MARKER j.path.dropLast ++ "." ++ j.fromCol ++ ")"),
        []) := by
  simp [readQueryCompile, fieldList, renderConds, whereClause, orderClause,
    addQueryPagination, String.append_empty]
  rfl

/-!
## Behaviour of the joins sort
-/

/-- The engine's insertion step puts the new element in front whenever the
comparator is positive against every element of the processed prefix. -/
theorem jsInsert_front (cmp : α → α → Int) (x : α) (acc : List α)
    (h : ∀ e ∈ acc, 0 < cmp e x) : jsInsert cmp x acc = x :: acc := by
  have hdrop : acc.reverse.dropWhile (fun e => decide (cmp e x > 0)) = [] := by
    rw [List.dropWhile_eq_nil_iff]
    intro e he
    simpa using h e (List.mem_reverse.mp he)
  have htake : acc.reverse.takeWhile (fun e => decide (cmp e x > 0)) = acc.reverse := by
    have hs : acc.reverse.takeWhile (fun e => decide (cmp e x > 0)) ++
        acc.reverse.dropWhile (fun e => decide (cmp e x > 0)) = acc.reverse :=
      List.takeWhile_append_dropWhile _ _
    rw [hdrop, List.append_nil] at hs
    exact hs
  unfold jsInsert
  rw [hdrop, htake]
  simp

/-- Each insertion step permutes: it merely repositions the new element. -/
theorem jsInsert_perm (cmp : α → α → Int) (x : α) (acc : List α) :
    List.Perm (jsInsert cmp x acc) (x :: acc) := by
  have hacc : (acc.reverse.dropWhile (fun e => decide (cmp e x > 0))).reverse ++
      (acc.reverse.takeWhile (fun e => decide (cmp e x > 0))).reverse = acc := by
    rw [← List.reverse_append, List.takeWhile_append_dropWhile, List.reverse_reverse]
  have h1 : jsInsert cmp x acc =
      (acc.reverse.dropWhile (fun e => decide (cmp e x > 0))).reverse ++
        x :: (acc.reverse.takeWhile (fun e => decide (cmp e x > 0))).reverse := rfl
  rw [h1]
  have h2 : List.Perm
      ((acc.reverse.dropWhile (fun e => decide (cmp e x > 0))).reverse ++
        x :: (acc.reverse.takeWhile (fun e => decide (cmp e x > 0))).reverse)
      (x :: ((acc.reverse.dropWhile (fun e => decide (cmp e x > 0))).reverse ++
        (acc.reverse.takeWhile (fun e => decide (cmp e x > 0))).reverse)) :=
    List.perm_middle
  rw [hacc] at h2
  exact h2

/-- The engine's sort only permutes the array. -/
theorem v8InsertionSort_perm (cmp : α → α → Int) (l : List α) :
    List.Perm (v8InsertionSort cmp l) l := by
  suffices h : ∀ (l acc : List α),
      List.Perm (l.foldl (fun a x => jsInsert cmp x a) acc) (l ++ acc) by
    have := h l []
    simpa [v8InsertionSort] using this
  intro l
  induction l with
  | nil => intro acc; simp
  | cons x xs ih =>
    intro acc
    have step : List.Perm (xs.foldl (fun a x => jsInsert cmp x a) (jsInsert cmp x acc))
        (xs ++ jsInsert cmp x acc) := ih (jsInsert cmp x acc)
    have hins : List.Perm (xs ++ jsInsert cmp x acc) (xs ++ x :: acc) :=
      List.Perm.append_left xs (jsInsert_perm cmp x acc)
    have hmid : List.Perm (xs ++ x :: acc) (x :: (xs ++ acc)) :=
      List.perm_middle
    simpa using (step.trans hins).trans hmid

/-- A join survives the sort exactly when it was in the input. -/
theorem mem_sortJoins (j : Join) (js : List Join) :
    j ∈ sortJoins js ↔ j ∈ js :=
  (v8InsertionSort_perm joinComparator js).mem_iff

/-- When every join has a non-empty path, `joinComparator` is positive on
every pair, and the engine's insertion sort prepends each element in turn:
the sorted list is the reverse of the input. -/
theorem sortJoins_aux (l : List Join) : ∀ (acc : List Join),
    (∀ j ∈ l ++ acc, j.path ≠ []) →
    l.foldl (fun a x => jsInsert joinComparator x a) acc = l.reverse ++ acc := by
  induction l with
  | nil => intro acc _; simp
  | cons x xs ih =>
    intro acc h
    have hx : jsInsert joinComparator x acc = x :: acc := by
      apply jsInsert_front
      intro e he
      have hne : e.path ≠ [] := h e (by simp [he])
      have hpos : 0 < e.path.length := List.length_pos.mpr hne
      simpa [joinComparator] using hpos
    simp only [List.foldl_cons, hx]
    rw [ih (x :: acc) (fun j hj => h j (by
      simp only [List.mem_append, List.mem_cons] at hj ⊢
      tauto))]
    simp

/-- Claim C3 (counterexample): a Create query whose joins are given
shallowest-first (`path` depths `[1, 2]`) has its CTEs emitted deepest
first — the emitted aliases are `["bΔc", "a"]` and the post-sort join
depths are `[2, 1]`, which is *not* ascending and not the claimed emission
order `["a", "bΔc"]`. -/
theorem joinCTEs_depth_order_violated :
    ((addQueryJoinCTEs ⟨⟨"tasks"⟩, ["id"],
        some [⟨"asrc", ["a"], "a", "id"⟩, ⟨"csrc", ["b", "c"], "c", "id"⟩],
        JS.vObj [("a", JS.vObj [("x", JS.vNum 1)]),
                 ("b", JS.vObj [("c", JS.vObj [("y", JS.vNum 2)])])]⟩).toOption.map
      fun r => r.1.map CTE.cteAlias) = some ["bΔc", "a"] ∧
    ((addQueryJoinCTEs ⟨⟨"tasks"⟩, ["id"],
        some [⟨"asrc", ["a"], "a", "id"⟩, ⟨"csrc", ["b", "c"], "c", "id"⟩],
        JS.vObj [("a", JS.vObj [("x", JS.vNum 1)]),
                 ("b", JS.vObj [("c", JS.vObj [("y", JS.vNum 2)])])]⟩).toOption.map
      fun r => (r.2.2.2.getD []).map fun j => j.path.length) = some [2, 1] ∧
    ¬ List.Sorted (· ≤ ·) [2, 1] ∧
    (["bΔc", "a"] : List String) ≠ ["a", "bΔc"] := by
  refine ⟨rfl, rfl, by decide, by decide⟩

/-- Claim C3 (amended): the joins list is sorted in place with the
single-argument callback `join => join.path.length` used as a comparator;
it returns a positive number for every join with a non-empty path, so the
engine's insertion sort (the behaviour the repository's own CTE unit test
pins, for the ≤ 10-element arrays it covers) reverses the list: CTEs are
emitted in **reverse of the given join order**, with no ascending-depth
ordering and no stability among equal depths. -/
theorem sortJoins_reverses (js : List Join)
    (h : ∀ j ∈ js, j.path ≠ []) (hlen : js.length ≤ 10) :
    sortJoins js = js.reverse := by
  unfold sortJoins v8InsertionSort
  rw [sortJoins_aux js [] (by simpa using h)]
  simp

/-- Claim C3 (witness): the repository's CTE test input — joins `owner`
then `project`, both of depth 1 — is reversed by the sort, as the test's
expected `WITH project …, owner …` output requires. -/
theorem sortJoins_reverses_witness :
    sortJoins [⟨"users", ["owner"], "owner", "id"⟩,
               ⟨"projects", ["project"], "project", "id"⟩] =
      [⟨"projects", ["project"], "project", "id"⟩,
       ⟨"users", ["owner"], "owner", "id"⟩] := by
  have h := sortJoins_reverses
    [⟨"users", ["owner"], "owner", "id"⟩,
     ⟨"projects", ["project"], "project", "id"⟩]
    (by decide) (by decide)
  simpa using h

/-- Claim C2: the claim states compiling is pure and deterministic.  The
code violates this: `addQueryJoinCTEs` sorts `q.joins` **in place** with an
inconsistent comparator, so the first compilation of the test-suite's own
two-join Create query emits CTEs `project, owner` and leaves the query's
joins reversed; compiling the query object again then emits `owner,
project` — a different SQL text — and the stored joins differ from the
original order. -/
theorem createQuery_recompile_differs_and_mutates :
    ((createQueryCompile ⟨⟨"tasks"⟩, [],
        some [⟨"users", ["owner"], "owner", "id"⟩,
              ⟨"projects", ["project"], "project", "id"⟩],
        JS.vObj [("name", JS.vStr "new task"),
                 ("project", JS.vObj [("name", JS.vStr "new project")]),
                 ("owner", JS.vObj [("name", JS.vStr "new user")])]⟩).toOption.map
      fun r => r.1.1) =
      some ("WITH project AS (INSERT INTO projects (name) VALUES ($1) RETURNING id), " ++
        "owner AS (INSERT INTO users (name) VALUES ($2) RETURNING id) " ++
        "INSERT INTO tasks (name, project, owner) " ++
        "VALUES ($3, (SELECT id FROM project), (SELECT id FROM owner))") ∧
    (((createQueryCompile ⟨⟨"tasks"⟩, [],
        some [⟨"users", ["owner"], "owner", "id"⟩,
              ⟨"projects", ["project"], "project", "id"⟩],
        JS.vObj [("name", JS.vStr "new task"),
                 ("project", JS.vObj [("name", JS.vStr "new project")]),
                 ("owner", JS.vObj [("name", JS.vStr "new user")])]⟩).toOption.bind
      fun r => (createQueryCompile r.2).toOption).map fun r => r.1.1) =
      some ("WITH owner AS (INSERT INTO users (name) VALUES ($1) RETURNING id), " ++
        "project AS (INSERT INTO projects (name) VALUES ($2) RETURNING id) " ++
        "INSERT INTO tasks (name, project, owner) " ++
        "VALUES ($3, (SELECT id FROM project), (SELECT id FROM owner))") ∧
    ("WITH project AS (INSERT INTO projects (name) VALUES ($1) RETURNING id), " ++
        "owner AS (INSERT INTO users (name) VALUES ($2) RETURNING id) " ++
        "INSERT INTO tasks (name, project, owner) " ++
        "VALUES ($3, (SELECT id FROM project), (SELECT id FROM owner))" : String) ≠
      ("WITH owner AS (INSERT INTO users (name) VALUES ($1) RETURNING id), " ++
        "project AS (INSERT INTO projects (name) VALUES ($2) RETURNING id) " ++
        "INSERT INTO tasks (name, project, owner) " ++
        "VALUES ($3, (SELECT id FROM project), (SELECT id FROM owner))") ∧
    ((createQueryCompile ⟨⟨"tasks"⟩, [],
        some [⟨"users", ["owner"], "owner", "id"⟩,
              ⟨"projects", ["project"], "project", "id"⟩],
        JS.vObj [("name", JS.vStr "new task"),
                 ("project", JS.vObj [("name", JS.vStr "new project")]),
                 ("owner", JS.vObj [("name", JS.vStr "new user")])]⟩).toOption.map
      fun r => (r.2.joins.getD []).map Join.path) =
      some [["project"], ["owner"]] ∧
    (some [["project"], ["owner"]] : Option (List (List String))) ≠
      some [["owner"], ["project"]] := by
  refine ⟨rfl, rfl, by decide, rfl, by decide⟩

/-!
## Skipping of non-object join values
-/

/-- The CTE loop skips every join whose path lookup in the original data is
not a JavaScript object (scalars and missing values). -/
theorem cteFold_skips (d : JS) (l : List Join) (td : JS) (n : Nat)
    (h : ∀ j ∈ l, jsTypeofOpt (pathLookup j.path d) ≠ "object") :
    cteFold d l td n = Except.ok ([], td, n) := by
  induction l with
  | nil => rfl
  | cons j js ih =>
    have hj := h j (List.mem_cons_self j js)
    simp only [cteFold]
    rw [if_pos hj]
    exact ih fun j' hj' => h j' (List.mem_cons_of_mem j hj')

/-- Claim C9 (counterexample): a `null` nested value is *not* silently
skipped — JavaScript's `typeof null` is `"object"`, so the guard falls
through, the nested insert is attempted, and Ramda's `map` over `null`
throws: compilation errors instead of leaving the value untouched. -/
theorem null_join_value_not_skipped :
    createQueryCompile ⟨⟨"tasks"⟩, ["id"],
        some [⟨"users", ["owner"], "owner", "id"⟩],
        JS.vObj [("name", JS.vStr "x"), ("owner", JS.vNull)]⟩ =
      Except.error "TypeError: Ramda map over null" ∧
    (createQueryCompile ⟨⟨"tasks"⟩, ["id"],
        some [⟨"users", ["owner"], "owner", "id"⟩,],
        JS.vObj [("name", JS.vStr "x"), ("owner", JS.vNull)]⟩).toOption = none := by
  exact ⟨rfl, rfl⟩

/-- Claim C9 (amended): a join whose path resolves to a value with
`typeof ≠ "object"` — a number, string, boolean, or a missing value — is
silently skipped: no CTE is emitted, the outgoing data is exactly the input
data, and no error is raised (the joins list is still sorted in place).
`null`, whose `typeof` *is* `"object"`, is excluded from this guarantee. -/
theorem scalar_join_values_skipped (q : CreateQuery) (js : List Join)
    (hj : q.joins = some js)
    (h : ∀ j ∈ js, jsTypeofOpt (pathLookup j.path q.data) ≠ "object") :
    addQueryJoinCTEs q = Except.ok ([], q.data, 1, some (sortJoins js)) := by
  have hc := cteFold_skips q.data (sortJoins js) q.data 1
    fun j hjs => h j ((mem_sortJoins j js).mp hjs)
  unfold addQueryJoinCTEs
  rw [hj]
  simp [hc]

/-- Claim C9 (witness): the repository's own "nested data is missing" test
shape — `project` is the scalar foreign key `10` — is skipped with the data
left untouched and no error. -/
theorem scalar_join_values_skipped_witness :
    addQueryJoinCTEs ⟨⟨"tasks"⟩, [],
        some [⟨"projects", ["project"], "project", "id"⟩],
        JS.vObj [("name", JS.vStr "new task"), ("project", JS.vNum 10)]⟩ =
      Except.ok ([], JS.vObj [("name", JS.vStr "new task"), ("project", JS.vNum 10)],
        1, some [⟨"projects", ["project"], "project", "id"⟩]) := by
  have h := scalar_join_values_skipped
    ⟨⟨"tasks"⟩, [], some [⟨"projects", ["project"], "project", "id"⟩],
      JS.vObj [("name", JS.vStr "new task"), ("project", JS.vNum 10)]⟩
    [⟨"projects", ["project"], "project", "id"⟩]
    rfl
    (by
      intro j hj
      simp only [List.mem_singleton] at hj
      subst hj
      decide)
  exact h

end Hypergres
